import Mathlib

/-!
Verification development for a conversational task-management backend
(FastAPI + SQLModel sources under `backend/app`).

Shallow embedding conventions: SQL tables become Lean lists of rows kept in
insertion order; `datetime.utcnow()` becomes an explicit `now : Nat` clock
value passed to each operation (successive calls receive successively larger
values); the SQLite autoincrement primary key becomes an explicit `nextId`
counter carried with the store.  Each tool function of
`app/agents/tools.py` becomes a pure function from the store and the clock to
a result dictionary and an updated store; the result dictionaries are encoded
as an inductive type with one constructor per dictionary shape the source
returns.  The external language model is represented by a finite script of
responses consumed by the agent loop.
-/

namespace App

/-- A row of the `tasks` table (the `Task` model imported from
`app.models`).  Timestamps are abstract clock values. -/
structure Task where
  id : Nat
  user_id : String
  title : String
  description : Option String
  completed : Bool
  created_at : Nat
  updated_at : Nat
deriving Repr, DecidableEq

/-- The task store: rows in insertion order, plus the autoincrement counter
supplying the next primary key. -/
structure TaskDB where
  tasks : List Task
  nextId : Nat
deriving Repr, DecidableEq

/-- An item of the `tasks` list returned by `list_tasks`: the dictionary with
keys id, title, description, completed and created_at (the isoformat string
is represented by the underlying clock value). -/
structure TaskOut where
  id : Nat
  title : String
  description : Option String
  completed : Bool
  created_at : Nat
deriving Repr, DecidableEq

/-- The result dictionaries returned by the tool functions in
`app/agents/tools.py` and by `TodoAgent._execute_tool`, one constructor per
shape: `opOk` is the dictionary with keys task_id, status and title;
`listOk` the one with keys tasks, count and status_filter; `notFound` the
one with keys error and task_id (the task_id echoes the argument, which is
`None` when the model omitted it); `err` the one with the single key
error. -/
inductive ToolResult where
  | opOk (task_id : Nat) (status : String) (title : String)
  | listOk (tasks : List TaskOut) (count : Nat) (status_filter : String)
  | notFound (error : String) (task_id : Option Nat)
  | err (error : String)
deriving Repr, DecidableEq

/-- Items of a `listOk` result (empty for the other shapes). -/
def ToolResult.items : ToolResult → List TaskOut
  | .listOk ts _ _ => ts
  | _ => []

/-- Count of a `listOk` result (zero for the other shapes). -/
def ToolResult.count : ToolResult → Nat
  | .listOk _ c _ => c
  | _ => 0

/-- Echoed status filter of a `listOk` result (empty for the other
shapes). -/
def ToolResult.status_filter : ToolResult → String
  | .listOk _ _ s => s
  | _ => ""

/-- The WHERE clause `Task.id == task_id, Task.user_id == user_id` used by
`complete_task`, `delete_task` and `update_task`. -/
def taskScope (user_id : String) (task_id : Nat) (t : Task) : Bool :=
  t.id == task_id && t.user_id == user_id

/-- `result.scalar_one_or_none()` on the scoped query: `id` is the primary
key, so at most one row can match and the first match is the row. -/
def findTask (db : TaskDB) (user_id : String) (task_id : Nat) : Option Task :=
  db.tasks.find? (taskScope user_id task_id)

/-- Mutating the fetched ORM object and committing updates the row in place:
it keeps its position in the table, and the row matching the scope (unique,
by primary key) is replaced by `g` of it. -/
def updateWhere (p : Task → Bool) (g : Task → Task) (l : List Task) : List Task :=
  l.map (fun t => if p t then g t else t)

/-- Modelled from the spec: the `Task` model file `app/models/task.py` is not
among the sources (only `app/models/__init__.py`, which imports it, is).
The spec requires a task title to be non-empty text and says `create` fails
with `ValidationError` if the title is empty, so constructing a `Task` with
an empty title is modelled as raising `ValidationError`; construction with a
non-empty title yields the row with the autoincrement id and both timestamps
set to the current clock. -/
def taskConstruct (db : TaskDB) (now : Nat) (user_id : String) (title : String)
    (description : Option String) : Except String Task :=
  if title = "" then
    .error "ValidationError: title must not be empty"
  else
    .ok ⟨db.nextId, user_id, title, description, false, now, now⟩

/-- `add_task` from `app/agents/tools.py`: construct the task, add, commit
and refresh; any exception is caught and returned as the error
dictionary. -/
def add_task (db : TaskDB) (now : Nat) (user_id : String) (title : String)
    (description : Option String) : ToolResult × TaskDB :=
  match taskConstruct db now user_id title description with
  | .error e => (.err e, db)
  | .ok t => (.opOk t.id "created" t.title, ⟨db.tasks ++ [t], db.nextId + 1⟩)

/-- ORDER BY `created_at` DESC, as in `list_tasks`. -/
def createdDesc (a b : Task) : Prop := b.created_at ≤ a.created_at

instance : DecidableRel createdDesc := fun a b => Nat.decLe b.created_at a.created_at

/-- The query of `list_tasks` before ordering: WHERE user_id matches, with
the optional completed filter (pending keeps uncompleted rows, completed
keeps completed rows, anything else applies no filter). -/
def taskFilter (db : TaskDB) (user_id : String) (status : Option String) : List Task :=
  let q1 := db.tasks.filter (fun t => t.user_id == user_id)
  if status == some "pending" then q1.filter (fun t => t.completed == false)
  else if status == some "completed" then q1.filter (fun t => t.completed == true)
  else q1

/-- Python `status or "all"`: `or` falls through both on `None` and on the
empty string (both falsy). -/
def statusEcho (status : Option String) : String :=
  match status with
  | none => "all"
  | some s => if s = "" then "all" else s

/-- The row-to-dictionary conversion in the list comprehension of
`list_tasks`. -/
def toTaskOut (t : Task) : TaskOut :=
  ⟨t.id, t.title, t.description, t.completed, t.created_at⟩

/-- `list_tasks` from `app/agents/tools.py`: scoped query, optional status
filter, ORDER BY created_at DESC, rows converted to dictionaries, count set
to the length of the returned list and the filter echoed back.  In the
embedding the database cannot raise, so the except branch returning the
error dictionary with an empty tasks list is unreachable and omitted. -/
def list_tasks (db : TaskDB) (user_id : String) (status : Option String) : ToolResult :=
  let rows := (List.insertionSort createdDesc (taskFilter db user_id status)).map toTaskOut
  .listOk rows rows.length (statusEcho status)

/-- `complete_task` from `app/agents/tools.py`: fetch by (id, user), return
the not-found dictionary when absent, otherwise set completed, refresh
updated_at to the current clock, commit, and report id, status completed and
the title. -/
def complete_task (db : TaskDB) (now : Nat) (user_id : String) (task_id : Nat) :
    ToolResult × TaskDB :=
  match findTask db user_id task_id with
  | none => (.notFound "Task not found" (some task_id), db)
  | some t =>
      let t' : Task := { t with completed := true, updated_at := now }
      (.opOk t'.id "completed" t'.title,
       { db with
          tasks := updateWhere (taskScope user_id task_id)
            (fun x => { x with completed := true, updated_at := now }) db.tasks })

/-- `delete_task` from `app/agents/tools.py`: fetch by (id, user), return the
not-found dictionary when absent, otherwise delete the row (the unique match
of the scope) and report the argument id, status deleted and the title read
before deletion. -/
def delete_task (db : TaskDB) (user_id : String) (task_id : Nat) :
    ToolResult × TaskDB :=
  match findTask db user_id task_id with
  | none => (.notFound "Task not found" (some task_id), db)
  | some t =>
      (.opOk task_id "deleted" t.title,
       { db with tasks := db.tasks.filter (fun x => !(taskScope user_id task_id x)) })

/-- The field assignments of `update_task`: a supplied title replaces the
title, a supplied description replaces the description, omitted fields are
left untouched, and updated_at is refreshed to the current clock. -/
def applyUpdate (title description : Option String) (now : Nat) (t : Task) : Task :=
  { t with
      title := title.getD t.title,
      description := match description with
        | some d => some d
        | none => t.description,
      updated_at := now }

/-- `update_task` from `app/agents/tools.py`: fetch by (id, user), return the
not-found dictionary when absent, otherwise apply the supplied fields, commit
and refresh, and report id, status updated and the post-update title. -/
def update_task (db : TaskDB) (now : Nat) (user_id : String) (task_id : Nat)
    (title : Option String) (description : Option String) : ToolResult × TaskDB :=
  match findTask db user_id task_id with
  | none => (.notFound "Task not found" (some task_id), db)
  | some t =>
      let t' := applyUpdate title description now t
      (.opOk t'.id "updated" t'.title,
       { db with
          tasks := updateWhere (taskScope user_id task_id)
            (applyUpdate title description now) db.tasks })

/-- A row of the `messages` table (`app/models/message.py`). -/
structure Message where
  id : Nat
  user_id : String
  conversation_id : Nat
  role : String
  content : String
  created_at : Nat
deriving Repr, DecidableEq

/-- A row of the `conversations` table (`app/models/conversation.py`). -/
structure Conversation where
  id : Nat
  user_id : String
  created_at : Nat
  updated_at : Nat
deriving Repr, DecidableEq

/-- The conversation store: rows in insertion order plus the autoincrement
counter supplying the next primary key. -/
structure ConvDB where
  convs : List Conversation
  nextId : Nat
deriving Repr, DecidableEq

/-- ORDER BY `created_at` ASC, as in `ConversationService.get_messages`. -/
def createdAsc (a b : Message) : Prop := a.created_at ≤ b.created_at

instance : DecidableRel createdAsc := fun a b => Nat.decLe a.created_at b.created_at

/-- `ConversationService.get_messages`: WHERE conversation_id matches,
ORDER BY created_at ASC, LIMIT `limit` — the LIMIT takes the first `limit`
rows of the ascending order, i.e. the oldest messages of the
conversation. -/
def get_messages (msgs : List Message) (conversation_id : Nat) (limit : Nat) :
    List Message :=
  (List.insertionSort createdAsc
    (msgs.filter (fun m => m.conversation_id == conversation_id))).take limit

/-- `ConversationService.get_message_history`: the fetched window with only
the user and assistant roles kept, each message reduced to its (role,
content) pair. -/
def get_message_history (msgs : List Message) (conversation_id : Nat) (limit : Nat) :
    List (String × String) :=
  (get_messages msgs conversation_id limit).filterMap
    (fun m =>
      if m.role = "user" ∨ m.role = "assistant" then some (m.role, m.content)
      else none)

/-- `ConversationService.create_conversation`: insert a fresh conversation
owned by the user, both timestamps at the current clock, commit and refresh
(the autoincrement id is `nextId`). -/
def create_conversation (db : ConvDB) (now : Nat) (user_id : String) :
    Conversation × ConvDB :=
  let c : Conversation := ⟨db.nextId, user_id, now, now⟩
  (c, ⟨db.convs ++ [c], db.nextId + 1⟩)

/-- `ConversationService.get_conversation`: WHERE id AND user_id,
`scalar_one_or_none` (id is the primary key, so at most one row matches and
the first match is the row). -/
def get_conversation (db : ConvDB) (conversation_id : Nat) (user_id : String) :
    Option Conversation :=
  db.convs.find? (fun c => c.id == conversation_id && c.user_id == user_id)

/-- `ConversationService.get_or_create_conversation`: the guard
`if conversation_id:` is Python truthiness, false both for `None` and for
`0`; a provided id is looked up scoped to the caller, and on any miss a new
conversation is created for the caller. -/
def get_or_create_conversation (db : ConvDB) (now : Nat)
    (conversation_id : Option Nat) (user_id : String) : Conversation × ConvDB :=
  match conversation_id with
  | some cid =>
      if cid ≠ 0 then
        match get_conversation db cid user_id with
        | some c => (c, db)
        | none => create_conversation db now user_id
      else create_conversation db now user_id
  | none => create_conversation db now user_id

/-- The parsed JSON argument object of a tool call: the keys that
`TodoAgent._execute_tool` reads via `tool_args.get`; a key the model did not
supply is `none`. -/
structure ToolArgs where
  title : Option String := none
  description : Option String := none
  status : Option String := none
  task_id : Option Nat := none
deriving Repr, DecidableEq

/-- Outcome of `json.loads(tool_call.function.arguments)`: the parsed object,
or the exception the parser raised. -/
inductive ParseResult where
  | ok (args : ToolArgs)
  | raise (e : String)
deriving Repr, DecidableEq

/-- One tool call requested by the model: its correlation id, the tool name,
and its argument payload (carried here already run through the parser the
loop applies to the raw JSON string). -/
structure ToolCallReq where
  id : String
  name : String
  arguments : ParseResult
deriving Repr, DecidableEq

/-- `TodoAgent._execute_tool`: dispatch on the tool name.  Absent arguments
follow the source defaults: a missing title becomes the empty string, a
missing status becomes the string all, and a missing task_id is passed as
Python `None`, which the SQL comparison `Task.id == None` (IS NULL) matches
against no row, so those branches return the not-found dictionary with a
`None` task_id and an unchanged store.  Any name outside the registry
returns the unknown-tool error dictionary. -/
def execute_tool (db : TaskDB) (now : Nat) (user_id : String) (tool_name : String)
    (args : ToolArgs) : ToolResult × TaskDB :=
  if tool_name = "add_task" then
    add_task db now user_id (args.title.getD "") args.description
  else if tool_name = "list_tasks" then
    (list_tasks db user_id (some (args.status.getD "all")), db)
  else if tool_name = "complete_task" then
    match args.task_id with
    | some tid => complete_task db now user_id tid
    | none => (.notFound "Task not found" none, db)
  else if tool_name = "delete_task" then
    match args.task_id with
    | some tid => delete_task db user_id tid
    | none => (.notFound "Task not found" none, db)
  else if tool_name = "update_task" then
    match args.task_id with
    | some tid => update_task db now user_id tid args.title args.description
    | none => (.notFound "Task not found" none, db)
  else
    (.err ("Unknown tool: " ++ tool_name), db)

/-- An entry of the `messages` transcript `process_message` sends to the
model: the system prompt, a user turn, an assistant turn with its raw tool
calls, or a tool result (whose content is the JSON serialization of the
result dictionary, kept structured here). -/
inductive ChatMsg where
  | systemMsg (content : String)
  | userMsg (content : String)
  | assistantMsg (content : String) (tool_calls : List ToolCallReq)
  | toolMsg (tool_call_id : String) (content : ToolResult)
deriving Repr, DecidableEq

/-- One response of the language model: either the API call raises, or it
returns a message with optional text content and a (possibly empty) list of
tool calls.  A finite script of such steps stands for the external model;
each step is one `chat.completions.create` response. -/
inductive ModelStep where
  | raise (e : String)
  | msg (content : Option String) (tool_calls : List ToolCallReq)
deriving Repr, DecidableEq

/-- An entry of `tool_calls_made`: the (name, parsed input, result) triple
recorded for the caller-visible trace. -/
structure ToolRecord where
  tool : String
  input : ToolArgs
  result : ToolResult
deriving Repr, DecidableEq

/-- The dictionary `process_message` returns: the reply text, the trace of
executed tool calls, and the error key present only on the except path. -/
structure AgentResult where
  response : String
  tool_calls : List ToolRecord
  error : Option String
deriving Repr, DecidableEq

/-- The reply text built by the except clause of `process_message`. -/
def errorReply (e : String) : String :=
  "I encountered an error: " ++ e ++ ". Please try again."

/-- The body of `for tool_call in assistant_message.tool_calls`: parse the
arguments, execute the tool, record the (name, input, result) triple, and
append the tool message to the transcript.  A `json.loads` failure
propagates to the enclosing except clause carrying the store and the trace
as committed so far (each executed tool has already committed). -/
def execBatch (user_id : String) (tcs : List ToolCallReq) (db : TaskDB) (now : Nat)
    (msgs : List ChatMsg) (made : List ToolRecord) :
    Except (String × TaskDB × List ToolRecord)
      (TaskDB × Nat × List ChatMsg × List ToolRecord) :=
  match tcs with
  | [] => .ok (db, now, msgs, made)
  | tc :: rest =>
      match tc.arguments with
      | .raise e => .error (e, db, made)
      | .ok args =>
          let r := execute_tool db now user_id tc.name args
          execBatch user_id rest r.2 (now + 1)
            (msgs ++ [.toolMsg tc.id r.1])
            (made ++ [⟨tc.name, args, r.1⟩])

/-- The `while assistant_message.tool_calls` loop of
`TodoAgent.process_message`, driven by the model script.  A response with no
tool calls terminates the loop with that text (or the fixed fallback when
the content is `None`) as the final answer; a response with tool calls
appends the assistant turn, executes the batch, and loops; a raised API or
parse exception is caught and turned into the apologetic reply carrying the
trace so far.  An exhausted script is a modelling artifact (the real loop
always receives a response) and returns a marker result. -/
def runLoop (user_id : String) (steps : List ModelStep) (db : TaskDB) (now : Nat)
    (msgs : List ChatMsg) (made : List ToolRecord) : AgentResult × TaskDB :=
  match steps with
  | [] => (⟨"model script exhausted", made, some "model script exhausted"⟩, db)
  | .raise e :: _ => (⟨errorReply e, made, some e⟩, db)
  | .msg content tcs :: rest =>
      if tcs.isEmpty then
        (⟨content.getD "I processed your request.", made, none⟩, db)
      else
        match execBatch user_id tcs db now
            (msgs ++ [.assistantMsg (content.getD "") tcs]) made with
        | .error (e, db', made') => (⟨errorReply e, made', some e⟩, db')
        | .ok (db', now', msgs', made') => runLoop user_id rest db' now' msgs' made'

/-- The system prompt (abbreviated to its first sentence; its exact text
plays no role in the verified properties). -/
def SYSTEM_PROMPT : String :=
  "You are a helpful todo assistant. You help users manage their tasks through conversation."

/-- `TodoAgent.process_message`: assemble the transcript from the system
prompt, the prior history and the new user message, start with an empty
trace, and run the loop against the model script. -/
def process_message (user_id : String) (message : String)
    (conversation_history : List ChatMsg) (steps : List ModelStep)
    (db : TaskDB) (now : Nat) : AgentResult × TaskDB :=
  runLoop user_id steps db now
    ([.systemMsg SYSTEM_PROMPT] ++ conversation_history ++ [.userMsg message]) []

/-- Erase the updated_at timestamps of every row: two stores are equal up to
modification times when their images under this map coincide. -/
def stripUpdatedAt (db : TaskDB) : TaskDB :=
  ⟨db.tasks.map (fun t => { t with updated_at := 0 }), db.nextId⟩

/-! Helper lemmas. -/

/-- Inserting an element strictly older than everything in the list into a
descending-by-creation order puts it at the end. -/
theorem orderedInsert_last (x : Task) (m : List Task)
    (h : ∀ y ∈ m, x.created_at < y.created_at) :
    List.orderedInsert createdDesc x m = m ++ [x] := by
  induction m with
  | nil => rfl
  | cons y ys ih =>
      have hy : ¬ createdDesc x y := by
        have := h y (List.mem_cons_self y ys)
        simp only [createdDesc]
        omega
      rw [List.orderedInsert, if_neg hy,
        ih (fun z hz => h z (List.mem_cons_of_mem y hz))]
      simp

/-- Sorting a list whose creation times strictly increase by descending
creation time reverses it. -/
theorem insertionSort_desc_eq_reverse (l : List Task)
    (h : l.Pairwise (fun a b => a.created_at < b.created_at)) :
    List.insertionSort createdDesc l = l.reverse := by
  induction l with
  | nil => rfl
  | cons x xs ih =>
      have hx := (List.pairwise_cons.mp h).1
      rw [List.insertionSort, ih (List.pairwise_cons.mp h).2,
        orderedInsert_last x xs.reverse
          (fun y hy => hx y (List.mem_reverse.mp hy)),
        List.reverse_cons]

/-- Updating the rows matched by a predicate with a matched-ness preserving
function relocates the first match pointwise. -/
theorem find?_updateWhere (p : Task → Bool) (g : Task → Task)
    (hg : ∀ x, p x = true → p (g x) = true) (l : List Task) :
    List.find? p (updateWhere p g l) = (List.find? p l).map g := by
  induction l with
  | nil => rfl
  | cons x xs ih =>
      by_cases hx : p x = true
      · simp [updateWhere, hx, List.find?_cons_of_pos, hg x hx]
      · have hx' : p x = false := by simpa using hx
        simp only [updateWhere, List.map_cons, if_neg hx]
        rw [List.find?_cons_of_neg _ (by simp [hx']),
          List.find?_cons_of_neg _ (by simp [hx'])]
        simpa [updateWhere] using ih

/-- After filtering out every match of a predicate, the predicate finds
nothing. -/
theorem find?_filter_not (p : Task → Bool) (l : List Task) :
    List.find? p (l.filter (fun x => !(p x))) = none := by
  rw [List.find?_eq_none]
  intro x hx
  have := List.of_mem_filter hx
  simp at this
  simp [this]

/-- The tool batch executor splits over list append: the second part runs
from the state the first part left, unless the first part raised. -/
theorem execBatch_append (user_id : String) (l₁ l₂ : List ToolCallReq)
    (db : TaskDB) (now : Nat) (msgs : List ChatMsg) (made : List ToolRecord) :
    execBatch user_id (l₁ ++ l₂) db now msgs made =
      match execBatch user_id l₁ db now msgs made with
      | .error r => .error r
      | .ok (db', now', msgs', made') => execBatch user_id l₂ db' now' msgs' made' := by
  induction l₁ generalizing db now msgs made with
  | nil => simp [execBatch]
  | cons tc rest ih =>
      cases h : tc.arguments with
      | raise e => simp [execBatch, h]
      | ok args => simp [execBatch, h, ih]

/-- The query of `list_tasks` only filters, so it preserves any pairwise
relation on the store. -/
theorem taskFilter_pairwise (db : TaskDB) (user_id : String) (status : Option String)
    {R : Task → Task → Prop} (h : db.tasks.Pairwise R) :
    (taskFilter db user_id status).Pairwise R := by
  simp only [taskFilter]
  split
  · exact (h.filter _).filter _
  · split
    · exact (h.filter _).filter _
    · exact h.filter _

/-! Claim theorems. -/

/-- Claim C1: for every owner, `add_task` with an empty title fails with the
ValidationError raised by Task construction and caught into the error
dictionary: no task is created (the store is returned unchanged) and an
error result is returned instead of the created dictionary. -/
theorem add_task_empty_title_rejected (db : TaskDB) (now : Nat) (user_id : String)
    (description : Option String) :
    add_task db now user_id "" description =
      (.err "ValidationError: title must not be empty", db) := by
  rfl

/-- Claim C2, evaluated at the failing input: for the conversation with
persisted messages M1 (user, oldest) then M2 (assistant, newest) and window
limit 1, `get_message_history` returns the oldest message M1, not the most
recent message M2 as the claim states — the LIMIT truncates the ascending
order from the front, keeping the oldest window. -/
theorem get_message_history_keeps_oldest :
    get_message_history
        [⟨1, "alice", 1, "user", "hello", 0⟩,
         ⟨2, "alice", 1, "assistant", "hi there", 1⟩] 1 1 =
      [("user", "hello")] ∧
    get_message_history
        [⟨1, "alice", 1, "user", "hello", 0⟩,
         ⟨2, "alice", 1, "assistant", "hi there", 1⟩] 1 1 ≠
      [("assistant", "hi there")] := by
  decide

/-- Claim C4, counterexample to the final-state conjunct: completing the
same owned task twice reports status completed with the title both times,
but the second call refreshes the updated_at timestamp, so the final store
differs from the store after the first call. -/
theorem complete_twice_final_state_differs :
    (complete_task ⟨[⟨1, "alice", "buy milk", none, false, 0, 0⟩], 2⟩ 1 "alice" 1).1 =
      .opOk 1 "completed" "buy milk" ∧
    (complete_task
        (complete_task ⟨[⟨1, "alice", "buy milk", none, false, 0, 0⟩], 2⟩ 1 "alice" 1).2
        2 "alice" 1).1 =
      .opOk 1 "completed" "buy milk" ∧
    (complete_task
        (complete_task ⟨[⟨1, "alice", "buy milk", none, false, 0, 0⟩], 2⟩ 1 "alice" 1).2
        2 "alice" 1).2 ≠
      (complete_task ⟨[⟨1, "alice", "buy milk", none, false, 0, 0⟩], 2⟩ 1 "alice" 1).2 := by
  decide

/-- Claim C4 as amended: completing an owned task twice returns status
completed with the current title both times, the second call is no error,
and the final store equals the store after the first call up to the
refreshed updated_at timestamp. -/
theorem complete_idempotent_up_to_timestamp (db : TaskDB) (now₁ now₂ : Nat)
    (user_id : String) (task_id : Nat) (t : Task)
    (h : findTask db user_id task_id = some t) :
    (complete_task db now₁ user_id task_id).1 = .opOk t.id "completed" t.title ∧
    (complete_task (complete_task db now₁ user_id task_id).2 now₂ user_id task_id).1 =
      .opOk t.id "completed" t.title ∧
    stripUpdatedAt
        (complete_task (complete_task db now₁ user_id task_id).2 now₂ user_id task_id).2 =
      stripUpdatedAt (complete_task db now₁ user_id task_id).2 := by
  have hg : ∀ now : Nat, ∀ x : Task, taskScope user_id task_id x = true →
      taskScope user_id task_id
        ({ x with completed := true, updated_at := now }) = true := by
    intro now x hx
    simpa [taskScope] using hx
  have hfind₂ :
      findTask (complete_task db now₁ user_id task_id).2 user_id task_id =
        some ({ t with completed := true, updated_at := now₁ }) := by
    simp only [complete_task, h]
    show List.find? _ (updateWhere _ _ _) = _
    rw [find?_updateWhere _ _ (hg now₁)]
    simp only [findTask] at h
    rw [h]
    rfl
  refine ⟨by simp [complete_task, h], ?_, ?_⟩
  · rw [complete_task, hfind₂]
  · rw [complete_task, hfind₂]
    simp only [complete_task, h, stripUpdatedAt, updateWhere, List.map_map]
    refine congrArg (fun l => TaskDB.mk l _) ?_
    apply List.map_congr_left
    intro x _
    by_cases hx : taskScope user_id task_id x = true
    · simp [Function.comp, hx, hg now₁ x hx]
    · simp [Function.comp, hx]

/-- Witness for the amended Claim C4 at a concrete store. -/
theorem complete_idempotent_up_to_timestamp_witness :
    findTask ⟨[⟨1, "alice", "buy milk", none, false, 0, 0⟩], 2⟩ "alice" 1 =
      some ⟨1, "alice", "buy milk", none, false, 0, 0⟩ ∧
    ((complete_task ⟨[⟨1, "alice", "buy milk", none, false, 0, 0⟩], 2⟩ 1 "alice" 1).1 =
        .opOk 1 "completed" "buy milk" ∧
      (complete_task
          (complete_task ⟨[⟨1, "alice", "buy milk", none, false, 0, 0⟩], 2⟩ 1 "alice" 1).2
          2 "alice" 1).1 =
        .opOk 1 "completed" "buy milk" ∧
      stripUpdatedAt
          (complete_task
            (complete_task ⟨[⟨1, "alice", "buy milk", none, false, 0, 0⟩], 2⟩ 1 "alice" 1).2
            2 "alice" 1).2 =
        stripUpdatedAt
          (complete_task ⟨[⟨1, "alice", "buy milk", none, false, 0, 0⟩], 2⟩ 1 "alice" 1).2) :=
  ⟨by decide,
    complete_idempotent_up_to_timestamp ⟨[⟨1, "alice", "buy milk", none, false, 0, 0⟩], 2⟩
      1 2 "alice" 1 ⟨1, "alice", "buy milk", none, false, 0, 0⟩ (by decide)⟩

/-- Claim C10: for every caller and every optional conversation id,
`get_or_create_conversation` returns a conversation owned by the caller;
it either hands back an existing conversation that the scoped lookup found
for the caller with the store untouched, or it creates a fresh conversation
for the caller — a foreign or nonexistent id falls into the creation case,
never an error and never another owner's conversation. -/
theorem get_or_create_conversation_owner (db : ConvDB) (now : Nat)
    (conversation_id : Option Nat) (user_id : String) :
    (get_or_create_conversation db now conversation_id user_id).1.user_id = user_id ∧
    ((∃ cid, conversation_id = some cid ∧
        get_conversation db cid user_id =
          some (get_or_create_conversation db now conversation_id user_id).1 ∧
        (get_or_create_conversation db now conversation_id user_id).2 = db) ∨
      get_or_create_conversation db now conversation_id user_id =
        create_conversation db now user_id) := by
  cases conversation_id with
  | none => exact ⟨rfl, Or.inr rfl⟩
  | some cid =>
      by_cases h0 : cid = 0
      · subst h0
        exact ⟨rfl, Or.inr rfl⟩
      · cases hc : get_conversation db cid user_id with
        | none =>
            refine ⟨?_, Or.inr ?_⟩ <;>
              simp [get_or_create_conversation, create_conversation, h0, hc]
        | some c =>
            have hc' : List.find? (fun x => x.id == cid && x.user_id == user_id)
                db.convs = some c := hc
            have hmem := List.find?_some hc'
            have howner : c.user_id = user_id := by
              simp only [Bool.and_eq_true, beq_iff_eq] at hmem
              exact hmem.2
            have hres : get_or_create_conversation db now (some cid) user_id = (c, db) := by
              simp [get_or_create_conversation, h0, hc]
            exact ⟨by rw [hres]; exact howner,
              Or.inl ⟨cid, rfl, by rw [hres, hc], by rw [hres]⟩⟩

/-- Claim C5: a successful delete of an owned task reports status deleted
with the title, and afterwards every complete, update or delete with the
same owner and id returns the not-found error dictionary carrying the
message and the task id and leaves the task store unchanged — and since the
store is unchanged, the same holds for every later such call. -/
theorem delete_then_not_found (db : TaskDB) (user_id : String) (task_id now : Nat)
    (title description : Option String) (t : Task)
    (h : findTask db user_id task_id = some t) :
    (delete_task db user_id task_id).1 = .opOk task_id "deleted" t.title ∧
    findTask (delete_task db user_id task_id).2 user_id task_id = none ∧
    complete_task (delete_task db user_id task_id).2 now user_id task_id =
      (.notFound "Task not found" (some task_id),
        (delete_task db user_id task_id).2) ∧
    update_task (delete_task db user_id task_id).2 now user_id task_id
        title description =
      (.notFound "Task not found" (some task_id),
        (delete_task db user_id task_id).2) ∧
    delete_task (delete_task db user_id task_id).2 user_id task_id =
      (.notFound "Task not found" (some task_id),
        (delete_task db user_id task_id).2) := by
  have hgone : findTask (delete_task db user_id task_id).2 user_id task_id = none := by
    simp only [delete_task, h]
    exact find?_filter_not _ _
  exact ⟨by simp [delete_task, h],
    hgone,
    by rw [complete_task, hgone],
    by rw [update_task, hgone],
    by rw [delete_task, hgone]⟩

/-- Witness for Claim C5 at a concrete store. -/
theorem delete_then_not_found_witness :
    findTask ⟨[⟨1, "alice", "pay rent", none, false, 0, 0⟩], 2⟩ "alice" 1 =
      some ⟨1, "alice", "pay rent", none, false, 0, 0⟩ ∧
    ((delete_task ⟨[⟨1, "alice", "pay rent", none, false, 0, 0⟩], 2⟩ "alice" 1).1 =
        .opOk 1 "deleted" "pay rent" ∧
      findTask (delete_task ⟨[⟨1, "alice", "pay rent", none, false, 0, 0⟩], 2⟩ "alice" 1).2
          "alice" 1 = none ∧
      complete_task
          (delete_task ⟨[⟨1, "alice", "pay rent", none, false, 0, 0⟩], 2⟩ "alice" 1).2
          5 "alice" 1 =
        (.notFound "Task not found" (some 1),
          (delete_task ⟨[⟨1, "alice", "pay rent", none, false, 0, 0⟩], 2⟩ "alice" 1).2) ∧
      update_task
          (delete_task ⟨[⟨1, "alice", "pay rent", none, false, 0, 0⟩], 2⟩ "alice" 1).2
          5 "alice" 1 (some "x") none =
        (.notFound "Task not found" (some 1),
          (delete_task ⟨[⟨1, "alice", "pay rent", none, false, 0, 0⟩], 2⟩ "alice" 1).2) ∧
      delete_task
          (delete_task ⟨[⟨1, "alice", "pay rent", none, false, 0, 0⟩], 2⟩ "alice" 1).2
          "alice" 1 =
        (.notFound "Task not found" (some 1),
          (delete_task ⟨[⟨1, "alice", "pay rent", none, false, 0, 0⟩], 2⟩ "alice" 1).2)) :=
  ⟨by decide,
    delete_then_not_found ⟨[⟨1, "alice", "pay rent", none, false, 0, 0⟩], 2⟩ "alice" 1 5
      (some "x") none ⟨1, "alice", "pay rent", none, false, 0, 0⟩ (by decide)⟩

/-- Claim C7: updating an existing owned task changes only the supplied
fields — an omitted title leaves the title, an omitted description leaves
the description, and id, owner and the completion flag are always unchanged;
the result reports status updated with the post-update title, the
autoincrement counter is untouched, and rows outside the scope stay in the
store unchanged. -/
theorem update_changes_only_supplied_fields (db : TaskDB) (now : Nat)
    (user_id : String) (task_id : Nat) (title description : Option String) (t : Task)
    (h : findTask db user_id task_id = some t) :
    (update_task db now user_id task_id title description).1 =
      .opOk t.id "updated" (title.getD t.title) ∧
    findTask (update_task db now user_id task_id title description).2 user_id task_id =
      some (applyUpdate title description now t) ∧
    (applyUpdate title description now t).id = t.id ∧
    (applyUpdate title description now t).user_id = t.user_id ∧
    (applyUpdate title description now t).completed = t.completed ∧
    (title = none → (applyUpdate title description now t).title = t.title) ∧
    (description = none →
      (applyUpdate title description now t).description = t.description) ∧
    (update_task db now user_id task_id title description).1 =
      .opOk (applyUpdate title description now t).id "updated"
        (applyUpdate title description now t).title ∧
    (update_task db now user_id task_id title description).2.nextId = db.nextId ∧
    (∀ x ∈ db.tasks, taskScope user_id task_id x = false →
      x ∈ (update_task db now user_id task_id title description).2.tasks) := by
  have hg : ∀ x : Task, taskScope user_id task_id x = true →
      taskScope user_id task_id (applyUpdate title description now x) = true := by
    intro x hx
    simpa [taskScope, applyUpdate] using hx
  refine ⟨by simp [update_task, h, applyUpdate], ?_, by simp [applyUpdate],
    by simp [applyUpdate], by simp [applyUpdate],
    ?_, ?_, by simp [update_task, h], by simp [update_task, h], ?_⟩
  · simp only [update_task, h]
    show List.find? _ (updateWhere _ _ _) = _
    rw [find?_updateWhere _ _ hg]
    simp only [findTask] at h
    rw [h]
    rfl
  · rintro rfl
    simp [applyUpdate]
  · rintro rfl
    simp [applyUpdate]
  · intro x hx hscope
    simp only [update_task, h, updateWhere]
    have : (if taskScope user_id task_id x then
        applyUpdate title description now x else x) = x := by
      simp [hscope]
    exact this ▸ List.mem_map_of_mem _ hx

/-- Witness for Claim C7 at a concrete store: only the description is
supplied, so the title survives. -/
theorem update_changes_only_supplied_fields_witness :
    findTask ⟨[⟨1, "alice", "call mom", none, false, 0, 0⟩], 2⟩ "alice" 1 =
      some ⟨1, "alice", "call mom", none, false, 0, 0⟩ ∧
    ((update_task ⟨[⟨1, "alice", "call mom", none, false, 0, 0⟩], 2⟩ 3 "alice" 1
          none (some "tonight")).1 =
        .opOk 1 "updated" "call mom" ∧
      findTask
          (update_task ⟨[⟨1, "alice", "call mom", none, false, 0, 0⟩], 2⟩ 3 "alice" 1
            none (some "tonight")).2 "alice" 1 =
        some (applyUpdate none (some "tonight") 3 ⟨1, "alice", "call mom", none, false, 0, 0⟩) ∧
      (applyUpdate none (some "tonight") 3 ⟨1, "alice", "call mom", none, false, 0, 0⟩).id = 1 ∧
      (applyUpdate none (some "tonight") 3
          ⟨1, "alice", "call mom", none, false, 0, 0⟩).user_id = "alice" ∧
      (applyUpdate none (some "tonight") 3
          ⟨1, "alice", "call mom", none, false, 0, 0⟩).completed = false ∧
      ((none : Option String) = none →
        (applyUpdate none (some "tonight") 3
          ⟨1, "alice", "call mom", none, false, 0, 0⟩).title = "call mom") ∧
      ((some "tonight" : Option String) = none →
        (applyUpdate none (some "tonight") 3
          ⟨1, "alice", "call mom", none, false, 0, 0⟩).description = none) ∧
      (update_task ⟨[⟨1, "alice", "call mom", none, false, 0, 0⟩], 2⟩ 3 "alice" 1
          none (some "tonight")).1 =
        .opOk (applyUpdate none (some "tonight") 3
            ⟨1, "alice", "call mom", none, false, 0, 0⟩).id "updated"
          (applyUpdate none (some "tonight") 3
            ⟨1, "alice", "call mom", none, false, 0, 0⟩).title ∧
      (update_task ⟨[⟨1, "alice", "call mom", none, false, 0, 0⟩], 2⟩ 3 "alice" 1
          none (some "tonight")).2.nextId = 2 ∧
      (∀ x ∈ [(⟨1, "alice", "call mom", none, false, 0, 0⟩ : Task)],
        taskScope "alice" 1 x = false →
        x ∈ (update_task ⟨[⟨1, "alice", "call mom", none, false, 0, 0⟩], 2⟩ 3 "alice" 1
          none (some "tonight")).2.tasks)) :=
  ⟨by decide,
    update_changes_only_supplied_fields ⟨[⟨1, "alice", "call mom", none, false, 0, 0⟩], 2⟩
      3 "alice" 1 none (some "tonight") ⟨1, "alice", "call mom", none, false, 0, 0⟩
      (by decide)⟩

/-- Claim C3: cross-owner isolation.  Adding a task owned by anyone other
than A to the store — with any id, colliding or not — changes neither the
result nor the effect on A-visible rows of any of A's list, complete, delete
or update operations, and the foreign task itself is left unmutated in
place. -/
theorem cross_owner_isolation (db : TaskDB) (t : Task) (A : String)
    (now task_id : Nat) (status title description : Option String)
    (hB : t.user_id ≠ A) :
    list_tasks ⟨db.tasks ++ [t], db.nextId⟩ A status = list_tasks db A status ∧
    (complete_task ⟨db.tasks ++ [t], db.nextId⟩ now A task_id).1 =
      (complete_task db now A task_id).1 ∧
    (complete_task ⟨db.tasks ++ [t], db.nextId⟩ now A task_id).2.tasks =
      (complete_task db now A task_id).2.tasks ++ [t] ∧
    (delete_task ⟨db.tasks ++ [t], db.nextId⟩ A task_id).1 =
      (delete_task db A task_id).1 ∧
    (delete_task ⟨db.tasks ++ [t], db.nextId⟩ A task_id).2.tasks =
      (delete_task db A task_id).2.tasks ++ [t] ∧
    (update_task ⟨db.tasks ++ [t], db.nextId⟩ now A task_id title description).1 =
      (update_task db now A task_id title description).1 ∧
    (update_task ⟨db.tasks ++ [t], db.nextId⟩ now A task_id title description).2.tasks =
      (update_task db now A task_id title description).2.tasks ++ [t] := by
  have huser : (t.user_id == A) = false := by simp [hB]
  have hscope : taskScope A task_id t = false := by
    simp [taskScope, hB]
  have hfind : findTask ⟨db.tasks ++ [t], db.nextId⟩ A task_id =
      findTask db A task_id := by
    show List.find? _ (db.tasks ++ [t]) = _
    rw [List.find?_append, List.find?_cons_of_neg _ (by simp [hscope])]
    simp [findTask]
  have hlist : taskFilter ⟨db.tasks ++ [t], db.nextId⟩ A status =
      taskFilter db A status := by
    simp [taskFilter, List.filter_append, huser]
  refine ⟨by simp only [list_tasks]; rw [hlist], ?_, ?_, ?_, ?_, ?_, ?_⟩ <;>
    cases hf : findTask db A task_id <;>
    simp [complete_task, delete_task, update_task, hfind, hf, updateWhere,
      List.filter_append, hscope]

/-- Witness for Claim C3: owner bob holds the only task with id 2, and
alice operates on id 2. -/
theorem cross_owner_isolation_witness :
    ("bob" : String) ≠ "alice" ∧
    (list_tasks ⟨[⟨1, "alice", "a", none, false, 0, 0⟩] ++ [⟨2, "bob", "b", none, false, 1, 1⟩], 3⟩
        "alice" (some "all") =
      list_tasks ⟨[⟨1, "alice", "a", none, false, 0, 0⟩], 3⟩ "alice" (some "all") ∧
    (complete_task ⟨[⟨1, "alice", "a", none, false, 0, 0⟩] ++ [⟨2, "bob", "b", none, false, 1, 1⟩], 3⟩
        5 "alice" 2).1 =
      (complete_task ⟨[⟨1, "alice", "a", none, false, 0, 0⟩], 3⟩ 5 "alice" 2).1 ∧
    (complete_task ⟨[⟨1, "alice", "a", none, false, 0, 0⟩] ++ [⟨2, "bob", "b", none, false, 1, 1⟩], 3⟩
        5 "alice" 2).2.tasks =
      (complete_task ⟨[⟨1, "alice", "a", none, false, 0, 0⟩], 3⟩ 5 "alice" 2).2.tasks ++
        [⟨2, "bob", "b", none, false, 1, 1⟩] ∧
    (delete_task ⟨[⟨1, "alice", "a", none, false, 0, 0⟩] ++ [⟨2, "bob", "b", none, false, 1, 1⟩], 3⟩
        "alice" 2).1 =
      (delete_task ⟨[⟨1, "alice", "a", none, false, 0, 0⟩], 3⟩ "alice" 2).1 ∧
    (delete_task ⟨[⟨1, "alice", "a", none, false, 0, 0⟩] ++ [⟨2, "bob", "b", none, false, 1, 1⟩], 3⟩
        "alice" 2).2.tasks =
      (delete_task ⟨[⟨1, "alice", "a", none, false, 0, 0⟩], 3⟩ "alice" 2).2.tasks ++
        [⟨2, "bob", "b", none, false, 1, 1⟩] ∧
    (update_task ⟨[⟨1, "alice", "a", none, false, 0, 0⟩] ++ [⟨2, "bob", "b", none, false, 1, 1⟩], 3⟩
        5 "alice" 2 (some "x") none).1 =
      (update_task ⟨[⟨1, "alice", "a", none, false, 0, 0⟩], 3⟩ 5 "alice" 2 (some "x") none).1 ∧
    (update_task ⟨[⟨1, "alice", "a", none, false, 0, 0⟩] ++ [⟨2, "bob", "b", none, false, 1, 1⟩], 3⟩
        5 "alice" 2 (some "x") none).2.tasks =
      (update_task ⟨[⟨1, "alice", "a", none, false, 0, 0⟩], 3⟩ 5 "alice" 2 (some "x") none).2.tasks ++
        [⟨2, "bob", "b", none, false, 1, 1⟩]) :=
  ⟨by decide,
    cross_owner_isolation ⟨[⟨1, "alice", "a", none, false, 0, 0⟩], 3⟩
      ⟨2, "bob", "b", none, false, 1, 1⟩ "alice" 5 2 (some "all") (some "x") none
      (by decide)⟩

/-- Claim C8: a tool name outside the registry is reported inline as the
unknown-tool error dictionary with the store untouched; inside the loop the
result is appended to the transcript as that call's tool output and recorded
in the trace, and the loop proceeds with the next model call instead of
aborting. -/
theorem unknown_tool_reported_inline (db : TaskDB) (now : Nat)
    (user_id name : String) (args : ToolArgs) (call_id : String)
    (content : Option String) (rest : List ModelStep) (msgs : List ChatMsg)
    (made : List ToolRecord)
    (h : name ∉ ["add_task", "list_tasks", "complete_task", "delete_task",
      "update_task"]) :
    execute_tool db now user_id name args = (.err ("Unknown tool: " ++ name), db) ∧
    runLoop user_id (.msg content [⟨call_id, name, .ok args⟩] :: rest) db now msgs made =
      runLoop user_id rest db (now + 1)
        (msgs ++ [.assistantMsg (content.getD "") [⟨call_id, name, .ok args⟩],
          .toolMsg call_id (.err ("Unknown tool: " ++ name))])
        (made ++ [⟨name, args, .err ("Unknown tool: " ++ name)⟩]) := by
  simp only [List.mem_cons, List.not_mem_nil, or_false, not_or] at h
  obtain ⟨h1, h2, h3, h4, h5⟩ := h
  have hexec : execute_tool db now user_id name args =
      (.err ("Unknown tool: " ++ name), db) := by
    simp [execute_tool, h1, h2, h3, h4, h5]
  refine ⟨hexec, ?_⟩
  simp [runLoop, execBatch, hexec]

/-- Witness for Claim C8 with the unregistered name fetch_weather. -/
theorem unknown_tool_reported_inline_witness :
    ("fetch_weather" : String) ∉
      ["add_task", "list_tasks", "complete_task", "delete_task", "update_task"] ∧
    (execute_tool ⟨[], 1⟩ 0 "alice" "fetch_weather" ⟨none, none, none, none⟩ =
      (.err ("Unknown tool: " ++ "fetch_weather"), ⟨[], 1⟩) ∧
    runLoop "alice"
        (.msg none [⟨"c1", "fetch_weather", .ok ⟨none, none, none, none⟩⟩] :: [])
        ⟨[], 1⟩ 0 [] [] =
      runLoop "alice" [] ⟨[], 1⟩ (0 + 1)
        ([] ++ [.assistantMsg ((none : Option String).getD "")
            [⟨"c1", "fetch_weather", .ok ⟨none, none, none, none⟩⟩],
          .toolMsg "c1" (.err ("Unknown tool: " ++ "fetch_weather"))])
        ([] ++ [⟨"fetch_weather", ⟨none, none, none, none⟩,
          .err ("Unknown tool: " ++ "fetch_weather")⟩])) :=
  ⟨by decide,
    unknown_tool_reported_inline ⟨[], 1⟩ 0 "alice" "fetch_weather"
      ⟨none, none, none, none⟩ "c1" none [] [] [] (by decide)⟩

/-- Claim C9: a raised model call at any loop iteration, and a raised
argument parse inside a batch, are both caught: `process_message` returns
the apologetic reply embedding the error description, paired with the trace
of every tool call already executed before the failure and the store those
calls committed — partial progress is reported and committed effects are
not rolled back. -/
theorem failure_reports_partial_progress (user_id e : String)
    (rest : List ModelStep) (db db' : TaskDB) (now now' : Nat)
    (msgs msgs' : List ChatMsg) (made made' : List ToolRecord)
    (content : Option String) (good : List ToolCallReq) (bad : ToolCallReq)
    (more : List ToolCallReq)
    (hbad : bad.arguments = .raise e)
    (hgood : execBatch user_id good db now
        (msgs ++ [.assistantMsg (content.getD "") (good ++ bad :: more)]) made =
      .ok (db', now', msgs', made')) :
    runLoop user_id (.raise e :: rest) db now msgs made =
      (⟨errorReply e, made, some e⟩, db) ∧
    runLoop user_id (.msg content (good ++ bad :: more) :: rest) db now msgs made =
      (⟨errorReply e, made', some e⟩, db') := by
  refine ⟨rfl, ?_⟩
  have hne : (good ++ bad :: more).isEmpty = false := by
    cases good <;> rfl
  rw [runLoop]
  rw [hne]
  simp only [Bool.false_eq_true, if_false]
  rw [execBatch_append, hgood]
  simp [execBatch, hbad]

/-- Witness for Claim C9: one add_task call succeeds, then the arguments of
a second call fail to parse; the reply embeds the parse error, the trace
holds the completed add_task call, and the created task stays in the
store. -/
theorem failure_reports_partial_progress_witness :
    (⟨"c2", "list_tasks", .raise "Expecting value"⟩ : ToolCallReq).arguments =
      .raise "Expecting value" ∧
    execBatch "alice" [⟨"c1", "add_task", .ok ⟨some "buy milk", none, none, none⟩⟩]
        ⟨[], 1⟩ 0
        ([] ++ [.assistantMsg ((none : Option String).getD "")
          ([⟨"c1", "add_task", .ok ⟨some "buy milk", none, none, none⟩⟩] ++
            ⟨"c2", "list_tasks", .raise "Expecting value"⟩ :: [])]) [] =
      .ok (⟨[⟨1, "alice", "buy milk", none, false, 0, 0⟩], 2⟩, 1,
        [.assistantMsg ""
            [⟨"c1", "add_task", .ok ⟨some "buy milk", none, none, none⟩⟩,
             ⟨"c2", "list_tasks", .raise "Expecting value"⟩],
          .toolMsg "c1" (.opOk 1 "created" "buy milk")],
        [⟨"add_task", ⟨some "buy milk", none, none, none⟩,
          .opOk 1 "created" "buy milk"⟩]) ∧
    (runLoop "alice" (.raise "Expecting value" :: []) ⟨[], 1⟩ 0 [] [] =
      (⟨errorReply "Expecting value", [], some "Expecting value"⟩, ⟨[], 1⟩) ∧
    runLoop "alice"
        (.msg none
          ([⟨"c1", "add_task", .ok ⟨some "buy milk", none, none, none⟩⟩] ++
            ⟨"c2", "list_tasks", .raise "Expecting value"⟩ :: []) :: [])
        ⟨[], 1⟩ 0 [] [] =
      (⟨errorReply "Expecting value",
          [⟨"add_task", ⟨some "buy milk", none, none, none⟩,
            .opOk 1 "created" "buy milk"⟩],
          some "Expecting value"⟩,
        ⟨[⟨1, "alice", "buy milk", none, false, 0, 0⟩], 2⟩)) :=
  ⟨rfl, rfl,
    failure_reports_partial_progress "alice" "Expecting value" [] ⟨[], 1⟩
      ⟨[⟨1, "alice", "buy milk", none, false, 0, 0⟩], 2⟩ 0 1 []
      [.assistantMsg ""
          [⟨"c1", "add_task", .ok ⟨some "buy milk", none, none, none⟩⟩,
           ⟨"c2", "list_tasks", .raise "Expecting value"⟩],
        .toolMsg "c1" (.opOk 1 "created" "buy milk")]
      []
      [⟨"add_task", ⟨some "buy milk", none, none, none⟩,
        .opOk 1 "created" "buy milk"⟩]
      none [⟨"c1", "add_task", .ok ⟨some "buy milk", none, none, none⟩⟩]
      ⟨"c2", "list_tasks", .raise "Expecting value"⟩ [] rfl rfl⟩

/-- Claim C6: `list_tasks` returns the owner's matching tasks ordered
newest-created-first (the reverse of insertion order, whose creation times
strictly increase), with count equal to the number of returned items and the
applied status filter echoed back; after a successful create, the items of
list all contain the created task exactly once, the items of list pending
contain it (it is created uncompleted), and a task of the owner appears in
the pending items exactly when it is not completed. -/
theorem list_tasks_order_count_and_created (db : TaskDB) (user_id title : String)
    (description : Option String) (now : Nat) (status : Option String)
    (hWF : ∀ u ∈ db.tasks, u.id < db.nextId)
    (hSorted : db.tasks.Pairwise (fun a b => a.created_at < b.created_at))
    (htitle : title ≠ "") :
    (list_tasks db user_id status).items =
      (taskFilter db user_id status).reverse.map toTaskOut ∧
    (list_tasks db user_id status).count =
      (list_tasks db user_id status).items.length ∧
    (list_tasks db user_id (some "all")).status_filter = "all" ∧
    (list_tasks db user_id (some "pending")).status_filter = "pending" ∧
    (list_tasks db user_id (some "completed")).status_filter = "completed" ∧
    (list_tasks db user_id status).items.Pairwise
      (fun a b => b.created_at ≤ a.created_at) ∧
    (add_task db now user_id title description).1 =
      .opOk db.nextId "created" title ∧
    (list_tasks (add_task db now user_id title description).2 user_id
        (some "all")).items.count
      (toTaskOut ⟨db.nextId, user_id, title, description, false, now, now⟩) = 1 ∧
    toTaskOut ⟨db.nextId, user_id, title, description, false, now, now⟩ ∈
      (list_tasks (add_task db now user_id title description).2 user_id
        (some "pending")).items ∧
    (∀ u ∈ (add_task db now user_id title description).2.tasks,
      u.user_id = user_id →
      (toTaskOut u ∈
          (list_tasks (add_task db now user_id title description).2 user_id
            (some "pending")).items ↔ u.completed = false)) := by
  have hfs : ∀ st : Option String, (taskFilter db user_id st).Pairwise
      (fun a b : Task => a.created_at < b.created_at) :=
    fun st => taskFilter_pairwise db user_id st hSorted
  have hitems : ∀ st, (list_tasks db user_id st).items =
      (taskFilter db user_id st).reverse.map toTaskOut := by
    intro st
    show (List.insertionSort createdDesc (taskFilter db user_id st)).map toTaskOut = _
    rw [insertionSort_desc_eq_reverse _ (hfs st)]
  have hadd : add_task db now user_id title description =
      (.opOk db.nextId "created" title,
        ⟨db.tasks ++ [⟨db.nextId, user_id, title, description, false, now, now⟩],
          db.nextId + 1⟩) := by
    simp [add_task, taskConstruct, htitle]
  have hfilterall :
      taskFilter ⟨db.tasks ++ [⟨db.nextId, user_id, title, description, false, now, now⟩],
          db.nextId + 1⟩ user_id (some "all") =
        db.tasks.filter (fun t => t.user_id == user_id) ++
          [⟨db.nextId, user_id, title, description, false, now, now⟩] := by
    show List.filter (fun t : Task => t.user_id == user_id)
        (db.tasks ++ [(⟨db.nextId, user_id, title, description, false, now, now⟩ : Task)]) = _
    rw [List.filter_append]
    simp
  refine ⟨hitems status, rfl, rfl, rfl, rfl, ?_, by rw [hadd], ?_, ?_, ?_⟩
  · rw [hitems status, List.pairwise_map, List.pairwise_reverse]
    exact (hfs status).imp (fun hab => Nat.le_of_lt hab)
  · rw [hadd]
    simp only [list_tasks, ToolResult.items]
    rw [((List.perm_insertionSort createdDesc _).map toTaskOut).count_eq]
    rw [hfilterall, List.map_append, List.count_append]
    have hzero : List.count
        (toTaskOut ⟨db.nextId, user_id, title, description, false, now, now⟩)
        ((db.tasks.filter (fun t => t.user_id == user_id)).map toTaskOut) = 0 := by
      rw [List.count_eq_zero]
      intro hmem
      obtain ⟨u, hu, hequ⟩ := List.mem_map.mp hmem
      have hid : u.id = db.nextId := congrArg TaskOut.id hequ
      have := hWF u (List.mem_filter.mp hu).1
      omega
    rw [hzero]
    simp
  · rw [hadd]
    simp only [list_tasks, ToolResult.items]
    refine List.mem_map_of_mem toTaskOut ?_
    rw [List.mem_insertionSort]
    simp [taskFilter, List.mem_filter, List.mem_append]
  · intro u hu huser
    rw [hadd] at hu
    simp only [TaskDB.mk.injEq] at hu
    rw [hadd]
    simp only [list_tasks, ToolResult.items]
    constructor
    · intro hmem
      obtain ⟨v, hv, heq⟩ := List.mem_map.mp hmem
      rw [List.mem_insertionSort] at hv
      have hvc : (v.completed == false) = true := (List.mem_filter.mp hv).2
      have hcc : v.completed = u.completed := congrArg TaskOut.completed heq
      simp only [beq_iff_eq] at hvc
      rw [← hcc]
      exact hvc
    · intro hcomp
      refine List.mem_map_of_mem toTaskOut ?_
      rw [List.mem_insertionSort]
      simp [taskFilter, List.mem_filter, List.mem_append, huser, hcomp]
      simpa [List.mem_append] using hu

/-- Witness for Claim C6: a store holding one completed task of the owner,
to which a fresh pending task is added. -/
theorem list_tasks_order_count_and_created_witness :
    (∀ u ∈ [(⟨1, "alice", "old chore", none, true, 0, 4⟩ : Task)], u.id < 2) ∧
    [(⟨1, "alice", "old chore", none, true, 0, 4⟩ : Task)].Pairwise
      (fun a b => a.created_at < b.created_at) ∧
    ("buy milk" : String) ≠ "" ∧
    ((list_tasks ⟨[⟨1, "alice", "old chore", none, true, 0, 4⟩], 2⟩ "alice"
        (some "all")).items =
      (taskFilter ⟨[⟨1, "alice", "old chore", none, true, 0, 4⟩], 2⟩ "alice"
        (some "all")).reverse.map toTaskOut ∧
    (list_tasks ⟨[⟨1, "alice", "old chore", none, true, 0, 4⟩], 2⟩ "alice"
        (some "all")).count =
      (list_tasks ⟨[⟨1, "alice", "old chore", none, true, 0, 4⟩], 2⟩ "alice"
        (some "all")).items.length ∧
    (list_tasks ⟨[⟨1, "alice", "old chore", none, true, 0, 4⟩], 2⟩ "alice"
        (some "all")).status_filter = "all" ∧
    (list_tasks ⟨[⟨1, "alice", "old chore", none, true, 0, 4⟩], 2⟩ "alice"
        (some "pending")).status_filter = "pending" ∧
    (list_tasks ⟨[⟨1, "alice", "old chore", none, true, 0, 4⟩], 2⟩ "alice"
        (some "completed")).status_filter = "completed" ∧
    (list_tasks ⟨[⟨1, "alice", "old chore", none, true, 0, 4⟩], 2⟩ "alice"
        (some "all")).items.Pairwise (fun a b => b.created_at ≤ a.created_at) ∧
    (add_task ⟨[⟨1, "alice", "old chore", none, true, 0, 4⟩], 2⟩ 7 "alice"
        "buy milk" none).1 = .opOk 2 "created" "buy milk" ∧
    (list_tasks (add_task ⟨[⟨1, "alice", "old chore", none, true, 0, 4⟩], 2⟩ 7 "alice"
        "buy milk" none).2 "alice" (some "all")).items.count
      (toTaskOut ⟨2, "alice", "buy milk", none, false, 7, 7⟩) = 1 ∧
    toTaskOut ⟨2, "alice", "buy milk", none, false, 7, 7⟩ ∈
      (list_tasks (add_task ⟨[⟨1, "alice", "old chore", none, true, 0, 4⟩], 2⟩ 7 "alice"
        "buy milk" none).2 "alice" (some "pending")).items ∧
    (∀ u ∈ (add_task ⟨[⟨1, "alice", "old chore", none, true, 0, 4⟩], 2⟩ 7 "alice"
        "buy milk" none).2.tasks,
      u.user_id = "alice" →
      (toTaskOut u ∈
          (list_tasks (add_task ⟨[⟨1, "alice", "old chore", none, true, 0, 4⟩], 2⟩ 7
            "alice" "buy milk" none).2 "alice" (some "pending")).items ↔
        u.completed = false))) :=
  ⟨by decide, by decide, by decide,
    list_tasks_order_count_and_created ⟨[⟨1, "alice", "old chore", none, true, 0, 4⟩], 2⟩
      "alice" "buy milk" none 7 (some "all") (by decide) (by decide) (by decide)⟩

end App
